import Mathlib

/-!
Shallow embedding of the adaptive JIT layer of the MiniScript repository
(ExpressionProfiler.h, MiniScriptJIT.cpp, RuntimeJIT.cpp, JITMachine.cpp),
with theorems settling the frozen claims about it.

Conventions of the embedding:
* C++ `uint64_t` / `size_t` counters are modelled as `Nat` (overflow of the
  64-bit hash accumulator is modelled explicitly with `% 2 ^ 64`).
* C++ `double` quantities (times, frequencies, thresholds) are modelled as
  exact rationals `ℚ`; the only double operations the claims depend on are
  multiplications by 0.9 / 1.1 followed by `std::max`/`std::min` clamps and
  comparisons, whose clamped results are insensitive to rounding.
* `std::unordered_map` is modelled as an association list with the map's
  find / operator-assignment semantics (`lookupKey` / `setKey`).
* Fallible C++ paths return `Except` / `Option`; external collaborator
  outcomes (LLVM IR generation, verification, symbol lookup) are explicit
  parameters of the embedded functions.
-/

namespace MS

/-- Association-list analogue of `std::unordered_map::find`. -/
def lookupKey {κ α : Type} [DecidableEq κ] : List (κ × α) → κ → Option α
  | [], _ => none
  | kv :: rest, k => if kv.1 = k then some kv.2 else lookupKey rest k

/-- Association-list analogue of assigning through `operator[]` to a key that
is already present: the stored value for that key is replaced. -/
def setKey {κ α : Type} [DecidableEq κ] (ps : List (κ × α)) (k : κ) (a : α) :
    List (κ × α) :=
  ps.map fun kv => if kv.1 = k then (k, a) else kv

/-! ## SimpleTACLine and the expression fingerprinter (MiniScriptJIT.cpp / ExpressionProfiler.h) -/

/-- `SimpleTACLine::Op` from MiniScriptJIT.cpp, in declaration order. -/
inductive SimpleOp
  | ASSIGN | ADD | SUB | MUL | DIV | POW | LOAD_CONST | LOAD_VAR
  deriving DecidableEq

/-- The integer value of each enumerator (`static_cast<int>(instr.operation)`). -/
def SimpleOp.toInt : SimpleOp → Int
  | .ASSIGN => 0
  | .ADD => 1
  | .SUB => 2
  | .MUL => 3
  | .DIV => 4
  | .POW => 5
  | .LOAD_CONST => 6
  | .LOAD_VAR => 7

/-- `SimpleTACLine` from MiniScriptJIT.cpp.  The C++ `double constant_value`
is modelled as an `Int` (the claims never depend on the printed form of a
non-integral constant). -/
structure SimpleTACLine where
  operation : SimpleOp
  result : String
  operandA : String := ""
  operandB : String := ""
  constant_value : Int := 0
  deriving DecidableEq

/-- The process-global state of `ExpressionFingerprinter::normalizeVariable`:
the two `static` locals `var_map` and `next_var_id`, which persist across
`fingerprint` calls for the lifetime of the process. -/
structure NormState where
  var_map : List (String × String)
  next_var_id : Nat
  deriving DecidableEq

/-- The state of the `static` locals at process start. -/
def NormState.empty : NormState := ⟨[], 0⟩

namespace ExpressionFingerprinter

/-- `ExpressionFingerprinter::normalizeVariable` (ExpressionProfiler.h):
returns the mapped name if `var` is already in the static map, otherwise
assigns the next fresh id `v<next_var_id>`, records it, and returns it.
The (mutated) static state is threaded explicitly. -/
def normalizeVariable (st : NormState) (var : String) : String × NormState :=
  match lookupKey st.var_map var with
  | some n => (n, st)
  | none =>
      let normalized := "v" ++ toString st.next_var_id
      (normalized, ⟨(var, normalized) :: st.var_map, st.next_var_id + 1⟩)

/-- One iteration of the canonicalization loop in
`ExpressionFingerprinter::fingerprint`: appends
`<op-int>:`, the normalized operands (when non-empty) each followed by `,`,
the constant followed by `,` for `LOAD_CONST`, and the terminator `;`. -/
def canonicalLine (st : NormState) (instr : SimpleTACLine) : String × NormState :=
  let s0 := toString instr.operation.toInt ++ ":"
  let pA := if instr.operandA = "" then (s0, st) else
    let (n, st2) := normalizeVariable st instr.operandA
    (s0 ++ n ++ ",", st2)
  let pB := if instr.operandB = "" then pA else
    let (n, st3) := normalizeVariable pA.2 instr.operandB
    (pA.1 ++ n ++ ",", st3)
  let s1 := if instr.operation = SimpleOp.LOAD_CONST then
    pB.1 ++ toString instr.constant_value ++ "," else pB.1
  (s1 ++ ";", pB.2)

/-- The canonical representation string built by
`ExpressionFingerprinter::fingerprint` — the exact string handed to
`std::hash<std::string>`.  The returned `uint64_t` is the (fixed,
deterministic) hash of this string, so two calls produce the same
fingerprint exactly when they feed the hasher the same canonical string;
the claims are settled at the level of this string.  The static
normalization state is threaded explicitly. -/
def fingerprint (st : NormState) : List SimpleTACLine → String × NormState
  | [] => ("", st)
  | instr :: rest =>
      let (s, st2) := canonicalLine st instr
      let (r, st3) := fingerprint st2 rest
      (s ++ r, st3)

/-- The longest-def-use-chain depth computation
`ExpressionFingerprinter::calculateDepth`. -/
def calculateDepth (instructions : List SimpleTACLine) : Nat :=
  let step := fun (acc : List (String × Nat) × Nat) (instr : SimpleTACLine) =>
    let d0 := 1
    let d1 := if instr.operandA = "" then d0 else
      match lookupKey acc.1 instr.operandA with
      | some d => max d0 (d + 1)
      | none => d0
    let d2 := if instr.operandB = "" then d1 else
      match lookupKey acc.1 instr.operandB with
      | some d => max d1 (d + 1)
      | none => d1
    let vm := match lookupKey acc.1 instr.result with
      | some _ => setKey acc.1 instr.result d2
      | none => (instr.result, d2) :: acc.1
    (vm, max acc.2 d2)
  (instructions.foldl step ([], 0)).2

/-- `ExpressionFingerprinter::analyzeComplexity`: operation count is the
instruction count, depth is the longest dependency chain, and complex ops
means a `POW` occurs. -/
def analyzeComplexity (instructions : List SimpleTACLine) : Nat × Nat × Bool :=
  (instructions.length, calculateDepth instructions,
   instructions.any fun instr => instr.operation = SimpleOp.POW)

end ExpressionFingerprinter

/-! ## Adaptive compilation thresholds (ExpressionProfiler.h) -/

/-- `CompilationThresholds` with its default member initializers. -/
structure CompilationThresholds where
  min_execution_count : Nat := 1000
  min_execution_frequency : ℚ := 100
  min_avg_execution_time_ns : ℚ := 10000
  max_complexity : Nat := 50
  max_compilation_time_ns : Nat := 50000000
  min_speedup_factor : ℚ := 3 / 2
  success_rate : ℚ := 0
  average_speedup : ℚ := 0
  deriving DecidableEq

/-- The threshold-adjustment branch of
`CompilationThresholds::adjustThresholds`, acting after the smoothed
metrics have been stored: high success and speedup lower the thresholds
toward their floors, low success or speedup raise them toward their
ceilings, anything else holds. -/
def CompilationThresholds.adjustBranch (th1 : CompilationThresholds) :
    CompilationThresholds :=
  if 4 / 5 < th1.success_rate ∧ 2 < th1.average_speedup then
    { th1 with
      min_execution_count := max 500 (th1.min_execution_count * 9 / 10),
      min_execution_frequency := max 50 (th1.min_execution_frequency * (9 / 10)) }
  else if th1.success_rate < 1 / 2 ∨ th1.average_speedup < 6 / 5 then
    { th1 with
      min_execution_count := min 5000 (th1.min_execution_count * 11 / 10),
      min_execution_frequency := min 500 (th1.min_execution_frequency * (11 / 10)) }
  else th1

/-- `CompilationThresholds::adjustThresholds`: exponentially smooths the
observed success rate and speedup with factor `alpha = 0.1` into the
state, then applies the adjustment branch.  The double products
`x * 0.9` / `x * 1.1` followed by the `uint64_t` cast are modelled as exact
rational products with truncation (`Nat` floor division); the
`std::max`/`std::min` clamps are exact in both semantics. -/
def CompilationThresholds.adjustThresholds (th : CompilationThresholds)
    (recent_success_rate recent_speedup : ℚ) : CompilationThresholds :=
  CompilationThresholds.adjustBranch
    { th with
      success_rate := (1 / 10) * recent_success_rate + (1 - 1 / 10) * th.success_rate,
      average_speedup := (1 / 10) * recent_speedup + (1 - 1 / 10) * th.average_speedup }

/-! ## Execution profiles and the expression profiler (ExpressionProfiler.h) -/

/-- `ExpressionProfile::CompilationStatus`. -/
inductive CompilationStatus
  | NOT_ANALYZED | INTERPRETER_ONLY | JIT_CANDIDATE | JIT_COMPILED | JIT_FAILED
  deriving DecidableEq

/-- `ExpressionProfile`: per-fingerprint execution statistics, static
characteristics and compilation status.  Times are nanosecond counters. -/
structure ExpressionProfile where
  execution_count : Nat := 0
  total_execution_time_ns : Nat := 0
  last_execution_time : Nat := 0
  operation_count : Nat := 0
  depth : Nat := 0
  has_complex_ops : Bool := false
  status : CompilationStatus := .NOT_ANALYZED
  compilation_time_ns : Nat := 0
  jit_execution_count : Nat := 0
  jit_total_time_ns : Nat := 0
  deriving DecidableEq

/-- `ExpressionProfile::getAverageExecutionTime`. -/
def ExpressionProfile.getAverageExecutionTime (p : ExpressionProfile) : ℚ :=
  if p.execution_count = 0 then 0
  else (p.total_execution_time_ns : ℚ) / (p.execution_count : ℚ)

/-- `ExpressionProfile::getExecutionFrequency`, with the clock sample taken
inside the function passed as `now`.  The `uint64_t` window
`now - last_execution_time` is modelled with truncated `Nat` subtraction
(the high-resolution clock is monotone, so `now` is never below the stored
timestamp). -/
def ExpressionProfile.getExecutionFrequency (p : ExpressionProfile) (now : Nat) : ℚ :=
  if p.last_execution_time = 0 then 0
  else
    let time_window := now - p.last_execution_time
    if time_window = 0 then 0
    else (p.execution_count : ℚ) * 1000000000 / (time_window : ℚ)

/-- `ExpressionProfiler::analyzeForCompilation` acting on one profile:
not enough executions leaves the profile untouched; otherwise low
frequency, low average time or excessive complexity demote to
`INTERPRETER_ONLY`, and anything else promotes to `JIT_CANDIDATE`.
`now` is the clock sample taken by `getExecutionFrequency` during the
analysis. -/
def analyzeForCompilation (th : CompilationThresholds) (p : ExpressionProfile)
    (now : Nat) : ExpressionProfile :=
  if p.execution_count < th.min_execution_count then p
  else if p.getExecutionFrequency now < th.min_execution_frequency then
    { p with status := .INTERPRETER_ONLY }
  else if p.getAverageExecutionTime < th.min_avg_execution_time_ns then
    { p with status := .INTERPRETER_ONLY }
  else if th.max_complexity < p.operation_count then
    { p with status := .INTERPRETER_ONLY }
  else { p with status := .JIT_CANDIDATE }

/-- `ExpressionProfiler`: the profile map keyed by the expression
fingerprint (a `uint64_t`, modelled as an opaque `Nat` key), the adaptive
thresholds, and the global counters. -/
structure ExpressionProfiler where
  profiles : List (Nat × ExpressionProfile) := []
  thresholds : CompilationThresholds := {}
  total_profiles : Nat := 0
  jit_candidates : Nat := 0
  successful_compilations : Nat := 0
  failed_compilations : Nat := 0
  deriving DecidableEq

namespace ExpressionProfiler

/-- `ExpressionProfiler::getOrCreateProfile`: returns the existing profile,
or creates one whose static characteristics come from
`ExpressionFingerprinter::analyzeComplexity` on the expression. -/
def getOrCreateProfile (st : ExpressionProfiler) (fp : Nat)
    (instructions : List SimpleTACLine) : ExpressionProfiler × ExpressionProfile :=
  match lookupKey st.profiles fp with
  | some p => (st, p)
  | none =>
      let c := ExpressionFingerprinter.analyzeComplexity instructions
      let p : ExpressionProfile :=
        { operation_count := c.1, depth := c.2.1, has_complex_ops := c.2.2 }
      ({ st with profiles := (fp, p) :: st.profiles,
                 total_profiles := st.total_profiles + 1 }, p)

/-- The store of the analyzed profile at the end of
`ExpressionProfiler::recordExecution`, bumping the `jit_candidates`
counter exactly when the candidacy test promoted the profile. -/
def storeAnalyzed (st1 : ExpressionProfiler) (fp : Nat)
    (p2 : ExpressionProfile) : ExpressionProfiler :=
  if p2.status = CompilationStatus.JIT_CANDIDATE then
    { st1 with profiles := setKey st1.profiles fp p2,
               jit_candidates := st1.jit_candidates + 1 }
  else { st1 with profiles := setKey st1.profiles fp p2 }

/-- The tail of `ExpressionProfiler::recordExecution` acting on the
already-updated profile `p1`: only a `NOT_ANALYZED` profile is put through
the candidacy test (`analyzeForCompilation`), any other status is stored
back unchanged. -/
def recordExecutionUpdated (st1 : ExpressionProfiler) (fp : Nat)
    (p1 : ExpressionProfile) (now2 : Nat) : ExpressionProfiler :=
  if p1.status = CompilationStatus.NOT_ANALYZED then
    storeAnalyzed st1 fp (analyzeForCompilation st1.thresholds p1 now2)
  else { st1 with profiles := setKey st1.profiles fp p1 }

/-- `ExpressionProfiler::recordExecution`: updates the execution statistics
and, only while the profile is `NOT_ANALYZED`, runs the candidacy test.
`execution_time_ns` is the measured duration, `now` the clock sample stored
into `last_execution_time`, and `now2` the (later) clock sample taken by
`getExecutionFrequency` inside the analysis.  The fingerprint of the
expression is passed as the key `fp`. -/
def recordExecution (st : ExpressionProfiler) (fp : Nat)
    (instructions : List SimpleTACLine) (execution_time_ns now now2 : Nat) :
    ExpressionProfiler :=
  recordExecutionUpdated (getOrCreateProfile st fp instructions).1 fp
    { (getOrCreateProfile st fp instructions).2 with
      execution_count := (getOrCreateProfile st fp instructions).2.execution_count + 1,
      total_execution_time_ns :=
        (getOrCreateProfile st fp instructions).2.total_execution_time_ns +
          execution_time_ns,
      last_execution_time := now } now2

/-- `ExpressionProfiler::shouldCompile`: true exactly for `JIT_CANDIDATE`. -/
def shouldCompile (st : ExpressionProfiler) (fp : Nat) : Bool :=
  match lookupKey st.profiles fp with
  | none => false
  | some p => p.status = .JIT_CANDIDATE

/-- `ExpressionProfiler::recordCompilation`: if the fingerprint has a
profile, unconditionally stores the compilation time and sets the status to
`JIT_COMPILED` or `JIT_FAILED` according to `success` (no check of the
current status is made), bumping the corresponding global counter. -/
def recordCompilation (st : ExpressionProfiler) (fp : Nat) (success : Bool)
    (compilation_time_ns : Nat) : ExpressionProfiler :=
  match lookupKey st.profiles fp with
  | none => st
  | some p =>
      let p1 := { p with
        compilation_time_ns := compilation_time_ns,
        status := if success then .JIT_COMPILED else .JIT_FAILED }
      let st1 := { st with profiles := setKey st.profiles fp p1 }
      if success then
        { st1 with successful_compilations := st1.successful_compilations + 1 }
      else
        { st1 with failed_compilations := st1.failed_compilations + 1 }

/-- `ExpressionProfiler::recordJITExecution`: accumulates compiled-path
counters of an existing profile; the status is untouched. -/
def recordJITExecution (st : ExpressionProfiler) (fp : Nat)
    (execution_time_ns : Nat) : ExpressionProfiler :=
  match lookupKey st.profiles fp with
  | none => st
  | some p =>
      let p1 := { p with jit_execution_count := p.jit_execution_count + 1,
                         jit_total_time_ns := p.jit_total_time_ns + execution_time_ns }
      { st with profiles := setKey st.profiles fp p1 }

/-- `ExpressionProfiler::updateThresholds`: recomputes the success rate and
the average observed speedup over compiled profiles, then adjusts the
thresholds; a state with no compilation attempts is returned unchanged. -/
def updateThresholds (st : ExpressionProfiler) : ExpressionProfiler :=
  if st.successful_compilations + st.failed_compilations = 0 then st
  else
    let total_attempts := st.successful_compilations + st.failed_compilations
    let success_rate : ℚ := (st.successful_compilations : ℚ) / (total_attempts : ℚ)
    let acc := st.profiles.foldl
      (fun (acc : ℚ × Nat) kv =>
        let p := kv.2
        if p.status = CompilationStatus.JIT_COMPILED ∧ 0 < p.jit_execution_count ∧
            0 < p.execution_count then
          let interpreter_avg := p.getAverageExecutionTime
          let jit_avg : ℚ := (p.jit_total_time_ns : ℚ) / (p.jit_execution_count : ℚ)
          if 0 < jit_avg then (acc.1 + interpreter_avg / jit_avg, acc.2 + 1) else acc
        else acc)
      ((0 : ℚ), (0 : Nat))
    let avg_speedup : ℚ := if 0 < acc.2 then acc.1 / (acc.2 : ℚ) else 1
    { st with thresholds := st.thresholds.adjustThresholds success_rate avg_speedup }

end ExpressionProfiler

/-! ## MiniScript TAC lines for the runtime JIT (RuntimeJIT.cpp / JITMachine.cpp)

The interpreter core header `MiniscriptTAC.h` is not part of the sources;
the operator and value-type enumerations below are modelled from the spec
and from every case the JIT sources reference
(`JITIntegration::convertOperation`, `JITIntegration::isJITCompilable`,
`JITMachine::HasHotPaths`), plus a generic `Other` tag for the remaining
operators. -/

/-- `TACLine::Op` of the interpreter core, restricted to the enumerators the
JIT layer inspects; `Other` stands for any further operator. -/
inductive MSOp
  | AssignA | APlusB | AMinusB | ATimesB | ADividedByB | AModB | APowB
  | AEqualB | ANotEqualB | AGreaterThanB | AGreatOrEqualB | ALessThanB
  | ALessOrEqualB | AAndB | AOrB | NotA | CallFunctionA | ReturnA
  | GotoA | GotoAifB | GotoAifTrulyB | GotoAifNotB | Other
  deriving DecidableEq

/-- An index for each modelled operator, standing in for its enum value
(the exact integer values do not affect any claim: the operator hash below
only has to be a fixed function of the operator). -/
def MSOp.toNat : MSOp → Nat
  | .AssignA => 0 | .APlusB => 1 | .AMinusB => 2 | .ATimesB => 3
  | .ADividedByB => 4 | .AModB => 5 | .APowB => 6 | .AEqualB => 7
  | .ANotEqualB => 8 | .AGreaterThanB => 9 | .AGreatOrEqualB => 10
  | .ALessThanB => 11 | .ALessOrEqualB => 12 | .AAndB => 13 | .AOrB => 14
  | .NotA => 15 | .CallFunctionA => 16 | .ReturnA => 17 | .GotoA => 18
  | .GotoAifB => 19 | .GotoAifTrulyB => 20 | .GotoAifNotB => 21 | .Other => 22

/-- The value types the JIT layer inspects (`ValueType` of the core). -/
inductive MSValueType
  | Number | Str | Var | Temp | Null
  deriving DecidableEq

/-- A core `Value`, reduced to the fields the JIT layer reads: its type tag
and, for numbers, the numeric payload (jump targets are cast to `long`, so
the payload is modelled as an `Int`). -/
structure MSValue where
  type : MSValueType := .Null
  numberValue : Int := 0
  deriving DecidableEq

/-- A core `TACLine`, reduced to the fields the JIT layer reads. -/
structure MSTACLine where
  op : MSOp
  lhs : MSValue := {}
  rhsA : MSValue := {}
  rhsB : MSValue := {}
  deriving DecidableEq

/-- An execution `Context`, reduced to what the JIT layer reads: the
pointer value used for identity (`reinterpret_cast<uintptr_t>(context)`)
and the TAC code list. -/
structure Context where
  id : Nat
  code : List MSTACLine
  deriving DecidableEq

namespace JITIntegration

/-- `JITIntegration::isJITCompilable` (RuntimeJIT.cpp). -/
def isJITCompilable (op : MSOp) : Bool :=
  match op with
  | .AssignA | .APlusB | .AMinusB | .ATimesB | .ADividedByB | .AModB
  | .APowB | .AEqualB | .ANotEqualB | .AGreaterThanB | .AGreatOrEqualB
  | .ALessThanB | .ALessOrEqualB | .AAndB | .AOrB | .NotA
  | .GotoA | .GotoAifB => true
  | _ => false

/-- `JITIntegration::containsHotPaths` (RuntimeJIT.cpp): scans the whole
context code for a `GotoA`/`GotoAifB` whose numeric target is strictly
below its own line index. -/
def containsHotPaths (code : List MSTACLine) : Bool :=
  code.enum.any fun iv =>
    decide ((iv.2.op = MSOp.GotoA ∨ iv.2.op = MSOp.GotoAifB) ∧
      iv.2.rhsA.type = MSValueType.Number ∧ iv.2.rhsA.numberValue < (iv.1 : Int))

end JITIntegration

/-! ## RuntimeJIT: region cache, compilation and dispatch (RuntimeJIT.cpp) -/

/-- `RuntimeJIT::CompiledRegion`.  The `llvm::Function*` handle is an
`Option Nat` (`none` is the null pointer). -/
structure CompiledRegion where
  function : Option Nat
  startLine : Int
  endLine : Int
  fingerprint : String
  compilationTime : Nat := 0
  executionCount : Nat := 0
  deriving DecidableEq

/-- The `RuntimeJIT` fields the embedded operations touch: the compiled
region cache and the statistics counters. -/
structure RuntimeJITState where
  compiledRegions : List (String × CompiledRegion) := []
  jitCompiledInstructions : Nat := 0
  jitExecutions : Nat := 0
  interpreterExecutions : Nat := 0
  deriving DecidableEq

namespace RuntimeJIT

/-- One step of the `opHash` accumulation in
`RuntimeJIT::generateContextFingerprint`:
`opHash ^= hash<int>(op) + 0x9e3779b9 + (opHash << 6) + (opHash >> 2)`,
in `size_t` (64-bit) arithmetic. -/
def opHashStep (h : Nat) (opVal : Nat) : Nat :=
  Nat.xor h ((opVal + 0x9e3779b9 + h * 64 + h / 4) % 2 ^ 64)

/-- The operator hash folded over the code lines with index in
`[startLine, endLine]` (the source loop runs
`for (i = startLine; i <= endLine && i < count; ++i)` with a
non-negative start). -/
def opHash (code : List MSTACLine) (startLine endLine : Int) : Nat :=
  code.enum.foldl
    (fun h iv =>
      if startLine ≤ (iv.1 : Int) ∧ (iv.1 : Int) ≤ endLine then
        opHashStep h iv.2.op.toNat
      else h)
    0

/-- `RuntimeJIT::generateContextFingerprint`: the cache key string
`ctx_<context pointer>_lines_<start>_<end>_hash_<opHash>`. -/
def generateContextFingerprint (ctx : Context) (startLine endLine : Int) : String :=
  "ctx_" ++ toString ctx.id ++ "_lines_" ++ toString startLine ++ "_" ++
    toString endLine ++ "_hash_" ++ toString (opHash ctx.code startLine endLine)

/-- `context->code.SubList(startLine, endLine - startLine + 1)`. -/
def subListRange (code : List MSTACLine) (startLine endLine : Int) : List MSTACLine :=
  (code.drop startLine.toNat).take (endLine - startLine + 1).toNat

/-- `RuntimeJIT::isCompilableSequence`: non-empty and every operator
JIT-compilable. -/
def isCompilableSequence (sequence : List MSTACLine) : Bool :=
  if sequence.length = 0 then false
  else sequence.all fun line => JITIntegration.isJITCompilable line.op

/-- Result of one `RuntimeJIT::compileContextRange` call: the returned
`bool`, whether the code generator (`AdvancedIRGenerator::generateFunction`)
was invoked during the call, and the state after the call. -/
structure CompileRangeResult where
  ok : Bool
  generatorInvoked : Bool
  state : RuntimeJITState
  deriving DecidableEq

/-- `RuntimeJIT::compileContextRange`.  The outcome of the external code
generator is the parameter `genFunction` (`none` = it returned null);
`compilationTime` is the elapsed timer value.  An already-cached
fingerprint returns `true` immediately; a non-compilable sequence returns
`false` before the generator is invoked; a generator failure returns
`false` with the cache untouched; success inserts the new region. -/
def compileContextRange (st : RuntimeJITState) (genFunction : Option Nat)
    (ctx : Context) (startLine endLine : Int) (compilationTime : Nat) :
    CompileRangeResult :=
  let fingerprint := generateContextFingerprint ctx startLine endLine
  match lookupKey st.compiledRegions fingerprint with
  | some _ => ⟨true, false, st⟩
  | none =>
      if ¬ isCompilableSequence (subListRange ctx.code startLine endLine) then
        ⟨false, false, st⟩
      else
        match genFunction with
        | none => ⟨false, true, st⟩
        | some f =>
            let region : CompiledRegion :=
              { function := some f, startLine := startLine, endLine := endLine,
                fingerprint := fingerprint, compilationTime := compilationTime }
            ⟨true, true,
              { st with
                compiledRegions := (fingerprint, region) :: st.compiledRegions,
                jitCompiledInstructions :=
                  st.jitCompiledInstructions + (endLine - startLine + 1).toNat }⟩

/-- Covering test of the region-selection loop in
`RuntimeJIT::executeJITOrFallback`:
`currentLine >= region.startLine && currentLine <= region.endLine`. -/
def coversLine (r : CompiledRegion) (line : Int) : Bool :=
  decide (r.startLine ≤ line ∧ line ≤ r.endLine)

/-- The span `region.endLine - region.startLine` compared by the selection
loop. -/
def spanOf (r : CompiledRegion) : Int := r.endLine - r.startLine

/-- One iteration of the best-region selection loop: a covering region
replaces the current best when there is none yet or when its span is
strictly larger. -/
def pickRegion (line : Int) (acc : Option (String × CompiledRegion))
    (kr : String × CompiledRegion) : Option (String × CompiledRegion) :=
  if coversLine kr.2 line then
    match acc with
    | none => some kr
    | some b => if spanOf b.2 < spanOf kr.2 then some kr else some b
  else acc

/-- The best-region selection loop of `RuntimeJIT::executeJITOrFallback`. -/
def findBestRegion (regions : List (String × CompiledRegion)) (line : Int) :
    Option (String × CompiledRegion) :=
  regions.foldl (pickRegion line) none

/-- `RuntimeJIT::executeCompiledFunction`: fails on a null function or a
null context, otherwise (simulated execution) succeeds. -/
def executeCompiledFunction (function : Option Nat) (contextValid : Bool) : Bool :=
  function.isSome && contextValid

/-- `RuntimeJIT::executeJITOrFallback`: returns the flag, the (possibly
advanced) current line, and the state after the call.  On a successful
compiled execution the line is set past the region end and the region's
execution counter is bumped; otherwise the interpreter-fallback counters
are bumped and the line is unchanged. -/
def executeJITOrFallback (st : RuntimeJITState) (contextValid : Bool)
    (currentLine : Int) : Bool × Int × RuntimeJITState :=
  let fallback : Bool × Int × RuntimeJITState :=
    (false, currentLine,
      { st with interpreterExecutions := st.interpreterExecutions + 1 })
  match findBestRegion st.compiledRegions currentLine with
  | none => fallback
  | some best =>
      if best.2.function.isSome then
        if executeCompiledFunction best.2.function contextValid then
          (true, best.2.endLine + 1,
            { st with
              jitExecutions := st.jitExecutions + 1,
              compiledRegions := setKey st.compiledRegions best.1
                ({ best.2 with executionCount := best.2.executionCount + 1 }) })
        else fallback
      else fallback

end RuntimeJIT

/-! ## MiniScriptJIT: the ORC-v2 function cache (MiniScriptJIT.cpp) -/

/-- The `MiniScriptJIT` fields the embedded operation touches: the
compiled-function cache (`std::unordered_map<std::string, ExecutorAddr>`,
addresses modelled as `Nat`) and the performance counters. -/
structure MiniScriptJIT where
  CompiledFunctions : List (String × Nat) := []
  CompilationCount : Nat := 0
  TotalCompileTime : Nat := 0
  deriving DecidableEq

/-- Outcomes of the external LLVM stages during one
`MiniScriptJIT::compileExpression` call: whether `generateLLVMIR`
produced a value, whether `verifyFunction` passed, whether `addIRModule`
succeeded, and the address found by `JIT->lookup` (`none` = lookup error).
(`applyOptimizations` returns its argument unchanged in the source and
cannot fail.) -/
structure CodegenOutcome where
  irGenOk : Bool
  verifyOk : Bool
  addModuleOk : Bool
  lookupResult : Option Nat
  deriving DecidableEq

deriving instance DecidableEq for Except

/-- Result of one `MiniScriptJIT::compileExpression` call: the
`Expected<ExecutorAddr>` value (as `Except`), whether the code-generation
pipeline was entered (vs. answered from the cache), and the state after
the call. -/
structure CompileExprResult where
  value : Except String Nat
  generatorInvoked : Bool
  state : MiniScriptJIT
  deriving DecidableEq

/-- `MiniScriptJIT::compileExpression`: a cached function name is returned
immediately; otherwise the pipeline runs, every failing stage returns an
error with the cache untouched, and success caches the looked-up address
and bumps the counters. -/
def MiniScriptJIT.compileExpression (jit : MiniScriptJIT) (out : CodegenOutcome)
    (functionName : String) (compileTime : Nat) : CompileExprResult :=
  match lookupKey jit.CompiledFunctions functionName with
  | some addr => ⟨.ok addr, false, jit⟩
  | none =>
      if ¬ out.irGenOk then ⟨.error "generateLLVMIR failed", true, jit⟩
      else if ¬ out.verifyOk then ⟨.error "Function verification failed", true, jit⟩
      else if ¬ out.addModuleOk then ⟨.error "addIRModule failed", true, jit⟩
      else
        match out.lookupResult with
        | none => ⟨.error "lookup failed", true, jit⟩
        | some addr =>
            ⟨.ok addr, true,
              { jit with
                CompiledFunctions := (functionName, addr) :: jit.CompiledFunctions,
                CompilationCount := jit.CompilationCount + 1,
                TotalCompileTime := jit.TotalCompileTime + compileTime }⟩

/-! ## JITMachine hot-path gating (JITMachine.cpp) -/

namespace JITMachine

/-- `JITMachine::HasHotPaths`: fewer than 5 instructions is never hot;
otherwise the WHOLE context code is scanned for a Goto-family instruction
with a numeric target strictly below its own line index. -/
def HasHotPaths (code : List MSTACLine) : Bool :=
  if code.length < 5 then false
  else
    code.enum.any fun iv =>
      decide ((iv.2.op = MSOp.GotoA ∨ iv.2.op = MSOp.GotoAifB ∨
          iv.2.op = MSOp.GotoAifTrulyB ∨ iv.2.op = MSOp.GotoAifNotB) ∧
        iv.2.rhsA.type = MSValueType.Number ∧
        iv.2.rhsA.numberValue < (iv.1 : Int))

/-- `JITMachine::ShouldConsiderJIT`: requires a live, enabled JIT and more
than 50 recorded executions of this context (`contextCount` is the
`contextExecutionCounts` entry, `none` when absent). -/
def ShouldConsiderJIT (jitPresent jitEnabled : Bool)
    (contextCount : Option Nat) : Bool :=
  if ¬ (jitPresent && jitEnabled) then false
  else
    match contextCount with
    | some c => decide (50 < c)
    | none => false

/-- The compile window `[max(0, cur - 10), min(count - 1, cur + 10)]`
chosen by `JITMachine::ExecuteWithJITOrFallback`. -/
def compileWindow (currentLine codeCount : Int) : Int × Int :=
  (max 0 (currentLine - 10), min (codeCount - 1) (currentLine + 10))

/-- The compile-attempt decision inside
`JITMachine::ExecuteWithJITOrFallback` (the interpreted path):
`CompileContextRange` on the window is reached exactly when
`ShouldConsiderJIT` and then `HasHotPaths` hold. -/
def attemptsCompilation (jitPresent jitEnabled : Bool)
    (contextCount : Option Nat) (code : List MSTACLine) : Bool :=
  ShouldConsiderJIT jitPresent jitEnabled contextCount && HasHotPaths code

/-- Modelled from the spec: the property claimed of the gate — the window
`[s, e]` itself contains a backward control-flow edge, i.e. a Goto-family
instruction at an index inside the window whose statically numeric target
is strictly below that index.  Used only to compare the claim against the
gate the code implements. -/
def windowContainsBackwardEdge (code : List MSTACLine) (s e : Int) : Bool :=
  code.enum.any fun iv =>
    decide (s ≤ (iv.1 : Int) ∧ (iv.1 : Int) ≤ e ∧
      (iv.2.op = MSOp.GotoA ∨ iv.2.op = MSOp.GotoAifB ∨
        iv.2.op = MSOp.GotoAifTrulyB ∨ iv.2.op = MSOp.GotoAifNotB) ∧
      iv.2.rhsA.type = MSValueType.Number ∧
      iv.2.rhsA.numberValue < (iv.1 : Int))

end JITMachine

/-! ## Interleaving model of the miss-compile-insert path (RuntimeJIT.cpp)

`RuntimeJIT::compileContextRange` holds `mutex_` for the cache lookup,
releases it, runs the code generator unlocked, then re-acquires the mutex
for the insertion.  Each thread racing for one never-seen fingerprint
therefore performs three separately-atomic steps: `check` (lookup under
the lock), `gen` (code generation, no lock), `insert` (store under the
lock).  A schedule is a list of thread indices; each entry runs the named
thread's next step. -/

/-- Progress of one racing thread through
check → generate → insert/finish. -/
inductive ThreadPhase
  | start
  | missed
  | generated (f : Option Nat)
  | finished (res : Bool) (genned : Bool)
  deriving DecidableEq

/-- Whether the thread has already invoked the code generator. -/
def ThreadPhase.hasGenned : ThreadPhase → Bool
  | .generated _ => true
  | .finished _ g => g
  | _ => false

/-- Whether the thread has completed its `compileContextRange` call. -/
def ThreadPhase.isFinished : ThreadPhase → Bool
  | .finished _ _ => true
  | _ => false

/-- Shared state of the race for one fixed fingerprint: whether the cache
holds an entry for it, how many times the code generator has been invoked
for it, and each thread's progress. -/
structure RaceState where
  cacheHasFp : Bool
  genCount : Nat
  threads : List ThreadPhase
  deriving DecidableEq

/-- Run the next atomic step of thread `tid` of
`RuntimeJIT::compileContextRange`: checking finds either a hit (return
`true` at once) or a miss; a missed thread invokes the generator
(`codegen tid` is its result, `none` = null function); a thread holding a
generated function inserts it (the `operator[]` store, overwriting any
earlier insert) and returns `true`; a thread holding a null result
returns `false` without touching the cache. -/
def raceStep (codegen : Nat → Option Nat) (s : RaceState) (tid : Nat) : RaceState :=
  match s.threads[tid]? with
  | none => s
  | some ph =>
      match ph with
      | .start =>
          if s.cacheHasFp then
            { s with threads := s.threads.set tid (.finished true false) }
          else
            { s with threads := s.threads.set tid .missed }
      | .missed =>
          { s with threads := s.threads.set tid (.generated (codegen tid)),
                   genCount := s.genCount + 1 }
      | .generated (some _) =>
          { s with threads := s.threads.set tid (.finished true true),
                   cacheHasFp := true }
      | .generated none =>
          { s with threads := s.threads.set tid (.finished false true) }
      | .finished _ _ => s

/-- Run a whole schedule of thread steps. -/
def runSchedule (codegen : Nat → Option Nat) (s0 : RaceState)
    (sched : List Nat) : RaceState :=
  sched.foldl (raceStep codegen) s0

/-- Initial race state: `n` threads about to call `compileContextRange`
for one fingerprint that is not yet cached. -/
def initRace (n : Nat) : RaceState :=
  ⟨false, 0, List.replicate n .start⟩

/-- The number of racing threads that have invoked the code generator. -/
def countGenned : List ThreadPhase → Nat
  | [] => 0
  | ph :: rest => (if ph.hasGenned then 1 else 0) + countGenned rest

/-- Invariant of the miss-compile-insert race: the generator-invocation
counter counts exactly the threads past their `gen` step, and is positive
as soon as the fingerprint is in the cache or any thread has completed
its call. -/
def raceInv (s : RaceState) : Prop :=
  s.genCount = countGenned s.threads ∧
  (s.cacheHasFp = true → 1 ≤ s.genCount) ∧
  (∀ ph ∈ s.threads, ph.isFinished = true → 1 ≤ s.genCount)

/-- The floor/ceiling bounds claimed for the two adaptively-adjusted
thresholds. -/
def thresholdsInBounds (th : CompilationThresholds) : Prop :=
  500 ≤ th.min_execution_count ∧ th.min_execution_count ≤ 5000 ∧
  50 ≤ th.min_execution_frequency ∧ th.min_execution_frequency ≤ 500

/-! ## Helper lemmas about the association-list map operations -/

theorem lookupKey_setKey_self {κ α : Type} [DecidableEq κ]
    (ps : List (κ × α)) (k : κ) (a b : α) (h : lookupKey ps k = some b) :
    lookupKey (setKey ps k a) k = some a := by
  induction ps with
  | nil => simp [lookupKey] at h
  | cons kv rest ih =>
      by_cases hk : kv.1 = k
      · simp [lookupKey, setKey, hk]
      · have h2 : lookupKey rest k = some b := by simpa [lookupKey, hk] using h
        simpa [lookupKey, setKey, hk] using ih h2

theorem lookupKey_cons_self {κ α : Type} [DecidableEq κ]
    (ps : List (κ × α)) (k : κ) (a : α) :
    lookupKey ((k, a) :: ps) k = some a := by
  simp [lookupKey]

/-! ## Claim C1: fingerprint purity and renaming invariance -/

/-- C1: the claim states that `ExpressionFingerprinter::fingerprint` is a
pure function of the instruction sequence alone, invariant under a
consistent renaming of operand names and independent of earlier calls.
This theorem evaluates the code at the failing input: fingerprinting
`r = a + b` from the pristine static state and then fingerprinting the
consistently renamed `r = c + d` in the same process feeds the hasher the
canonical strings `1:v0,v1,;` and `1:v2,v3,;` — the result depends on the
earlier call, because the `static` normalization map persists.  The first
conjunct shows the algorithm run on the renamed sequence from a pristine
state would produce the identical canonical string, so the per-call
positional normalization is what the code's own comments describe and the
static state is the deviation. -/
theorem c1_fingerprint_depends_on_call_history :
    (ExpressionFingerprinter.fingerprint NormState.empty
        [{ operation := .ADD, result := "r", operandA := "c", operandB := "d" }]).1 =
      (ExpressionFingerprinter.fingerprint NormState.empty
        [{ operation := .ADD, result := "r", operandA := "a", operandB := "b" }]).1 ∧
    (ExpressionFingerprinter.fingerprint
        (ExpressionFingerprinter.fingerprint NormState.empty
          [{ operation := .ADD, result := "r", operandA := "a", operandB := "b" }]).2
        [{ operation := .ADD, result := "r", operandA := "c", operandB := "d" }]).1 ≠
      (ExpressionFingerprinter.fingerprint NormState.empty
        [{ operation := .ADD, result := "r", operandA := "a", operandB := "b" }]).1 := by
  decide

/-! ## Claim C5: threshold bounds -/

theorem adjustBranch_preserves_bounds (th1 : CompilationThresholds)
    (h : thresholdsInBounds th1) : thresholdsInBounds th1.adjustBranch := by
  obtain ⟨h1, h2, h3, h4⟩ := h
  unfold thresholdsInBounds CompilationThresholds.adjustBranch
  split_ifs with hc1 hc2
  · refine ⟨?_, ?_, ?_, ?_⟩
    · exact le_max_left _ _
    · show max 500 (th1.min_execution_count * 9 / 10) ≤ 5000
      omega
    · exact le_max_left _ _
    · show max 50 (th1.min_execution_frequency * (9 / 10)) ≤ 500
      refine max_le (by norm_num) ?_
      have hle : th1.min_execution_frequency * (9 / 10) ≤ th1.min_execution_frequency := by
        nlinarith
      exact le_trans hle h4
  · refine ⟨?_, ?_, ?_, ?_⟩
    · show 500 ≤ min 5000 (th1.min_execution_count * 11 / 10)
      omega
    · exact min_le_left _ _
    · show 50 ≤ min 500 (th1.min_execution_frequency * (11 / 10))
      refine le_min (by norm_num) ?_
      have hle : th1.min_execution_frequency ≤ th1.min_execution_frequency * (11 / 10) := by
        nlinarith
      exact le_trans h3 hle
    · exact min_le_left _ _
  · exact ⟨h1, h2, h3, h4⟩

theorem adjustThresholds_preserves_bounds (th : CompilationThresholds)
    (s r : ℚ) (h : thresholdsInBounds th) :
    thresholdsInBounds (th.adjustThresholds s r) := by
  obtain ⟨h1, h2, h3, h4⟩ := h
  exact adjustBranch_preserves_bounds _ ⟨h1, h2, h3, h4⟩

theorem foldl_adjustThresholds_bounds (updates : List (ℚ × ℚ))
    (th : CompilationThresholds) (h : thresholdsInBounds th) :
    thresholdsInBounds (updates.foldl
      (fun acc pr => acc.adjustThresholds pr.1 pr.2) th) := by
  induction updates generalizing th with
  | nil => exact h
  | cons pr rest ih =>
      exact ih _ (adjustThresholds_preserves_bounds th pr.1 pr.2 h)

/-- C5: starting from the default thresholds, any finite sequence of
`adjustThresholds` calls with arbitrary observed success rates and
speedups keeps `min_execution_count` within `[500, 5000]` and
`min_execution_frequency` within `[50, 500]`; and
`ExpressionProfiler::updateThresholds` (which either returns the state
unchanged or performs one such adjustment) preserves those bounds. -/
theorem c5_threshold_bounds :
    (∀ updates : List (ℚ × ℚ),
        thresholdsInBounds (updates.foldl
          (fun acc pr => acc.adjustThresholds pr.1 pr.2)
          ({} : CompilationThresholds))) ∧
    (∀ st : ExpressionProfiler, thresholdsInBounds st.thresholds →
        thresholdsInBounds st.updateThresholds.thresholds) := by
  constructor
  · intro updates
    refine foldl_adjustThresholds_bounds updates _ ?_
    refine ⟨by norm_num, by norm_num, ?_, ?_⟩ <;> norm_num
  · intro st h
    unfold ExpressionProfiler.updateThresholds
    split_ifs with hz
    · exact h
    · exact adjustThresholds_preserves_bounds _ _ _ h

/-! ## Claims C2 and C3: profiler status transitions and the candidacy test -/

theorem getOrCreateProfile_found (st : ExpressionProfiler) (fp : Nat)
    (instrs : List SimpleTACLine) (p : ExpressionProfile)
    (h : lookupKey st.profiles fp = some p) :
    ExpressionProfiler.getOrCreateProfile st fp instrs = (st, p) := by
  unfold ExpressionProfiler.getOrCreateProfile
  rw [h]

theorem updateThresholds_profiles (st : ExpressionProfiler) :
    st.updateThresholds.profiles = st.profiles := by
  unfold ExpressionProfiler.updateThresholds
  split_ifs <;> rfl

theorem recordJITExecution_lookup (st : ExpressionProfiler) (fp t : Nat)
    (p : ExpressionProfile) (h : lookupKey st.profiles fp = some p) :
    lookupKey (st.recordJITExecution fp t).profiles fp =
      some { p with jit_execution_count := p.jit_execution_count + 1,
                    jit_total_time_ns := p.jit_total_time_ns + t } := by
  unfold ExpressionProfiler.recordJITExecution
  rw [h]
  exact lookupKey_setKey_self _ _ _ _ h

theorem recordCompilation_lookup (st : ExpressionProfiler) (fp : Nat)
    (success : Bool) (t : Nat) (p : ExpressionProfile)
    (h : lookupKey st.profiles fp = some p) :
    lookupKey (st.recordCompilation fp success t).profiles fp =
      some { p with compilation_time_ns := t,
                    status := if success then CompilationStatus.JIT_COMPILED
                              else CompilationStatus.JIT_FAILED } := by
  unfold ExpressionProfiler.recordCompilation
  rw [h]
  split_ifs with hs <;> exact lookupKey_setKey_self _ _ _ _ h

theorem storeAnalyzed_lookup (st1 : ExpressionProfiler) (fp : Nat)
    (p2 b : ExpressionProfile) (hb : lookupKey st1.profiles fp = some b) :
    lookupKey (ExpressionProfiler.storeAnalyzed st1 fp p2).profiles fp = some p2 := by
  unfold ExpressionProfiler.storeAnalyzed
  split_ifs <;> exact lookupKey_setKey_self _ _ _ _ hb

theorem recordExecutionUpdated_lookup_settled (st1 : ExpressionProfiler)
    (fp : Nat) (p1 b : ExpressionProfile) (now2 : Nat)
    (hb : lookupKey st1.profiles fp = some b)
    (hs : ¬ p1.status = CompilationStatus.NOT_ANALYZED) :
    lookupKey (ExpressionProfiler.recordExecutionUpdated st1 fp p1 now2).profiles fp =
      some p1 := by
  unfold ExpressionProfiler.recordExecutionUpdated
  rw [if_neg hs]
  exact lookupKey_setKey_self _ _ _ _ hb

theorem recordExecutionUpdated_lookup_notAnalyzed (st1 : ExpressionProfiler)
    (fp : Nat) (p1 b : ExpressionProfile) (now2 : Nat)
    (hb : lookupKey st1.profiles fp = some b)
    (hs : p1.status = CompilationStatus.NOT_ANALYZED) :
    lookupKey (ExpressionProfiler.recordExecutionUpdated st1 fp p1 now2).profiles fp =
      some (analyzeForCompilation st1.thresholds p1 now2) := by
  unfold ExpressionProfiler.recordExecutionUpdated
  rw [if_pos hs]
  exact storeAnalyzed_lookup st1 fp _ b hb

theorem recordExecution_settled_lookup (st : ExpressionProfiler) (fp : Nat)
    (instrs : List SimpleTACLine) (t n1 n2 : Nat) (p : ExpressionProfile)
    (h : lookupKey st.profiles fp = some p)
    (hs : ¬ p.status = CompilationStatus.NOT_ANALYZED) :
    lookupKey (st.recordExecution fp instrs t n1 n2).profiles fp =
      some { p with execution_count := p.execution_count + 1,
                    total_execution_time_ns := p.total_execution_time_ns + t,
                    last_execution_time := n1 } := by
  unfold ExpressionProfiler.recordExecution
  rw [getOrCreateProfile_found st fp instrs p h]
  exact recordExecutionUpdated_lookup_settled st fp _ p n2 h (by simpa using hs)

theorem recordExecution_notAnalyzed_lookup (st : ExpressionProfiler) (fp : Nat)
    (instrs : List SimpleTACLine) (t n1 n2 : Nat) (p : ExpressionProfile)
    (h : lookupKey st.profiles fp = some p)
    (hs : p.status = CompilationStatus.NOT_ANALYZED) :
    lookupKey (st.recordExecution fp instrs t n1 n2).profiles fp =
      some (analyzeForCompilation st.thresholds
        { p with execution_count := p.execution_count + 1,
                 total_execution_time_ns := p.total_execution_time_ns + t,
                 last_execution_time := n1 } n2) := by
  unfold ExpressionProfiler.recordExecution
  rw [getOrCreateProfile_found st fp instrs p h]
  exact recordExecutionUpdated_lookup_notAnalyzed st fp _ p n2 h (by simpa using hs)

/-- C2 counterexample: the claim says a profile never leaves `JIT_FAILED`,
and that `recordCompilation` moves a profile to `JIT_COMPILED`/`JIT_FAILED`
only from `JIT_CANDIDATE`.  On a profile whose status is `JIT_FAILED`, a
`recordCompilation` call reporting success rewrites the status to
`JIT_COMPILED`: the code never inspects the current status. -/
theorem c2_counterexample :
    lookupKey (ExpressionProfiler.recordCompilation
        { profiles := [(1, { status := CompilationStatus.JIT_FAILED })] }
        1 true 7).profiles 1 =
      some { status := CompilationStatus.JIT_COMPILED, compilation_time_ns := 7 } := by
  decide

/-- C2 (amended): once a profile's status is `INTERPRETER_ONLY`,
`JIT_COMPILED` or `JIT_FAILED`, the operations `recordExecution`,
`recordJITExecution` and `updateThresholds` never change it (in
particular the candidacy test is never re-run); `recordCompilation`,
however, overwrites the status of an existing profile with
`JIT_COMPILED` or `JIT_FAILED` according to its `success` flag from ANY
current status — it does not require `JIT_CANDIDATE`. -/
theorem c2_settled_status_stability :
    ∀ (st : ExpressionProfiler) (fp : Nat) (p : ExpressionProfile),
      lookupKey st.profiles fp = some p →
      (p.status = CompilationStatus.INTERPRETER_ONLY ∨
       p.status = CompilationStatus.JIT_COMPILED ∨
       p.status = CompilationStatus.JIT_FAILED) →
      (∀ instrs t n1 n2, ∃ q,
          lookupKey (st.recordExecution fp instrs t n1 n2).profiles fp = some q ∧
          q.status = p.status) ∧
      (∀ t, ∃ q,
          lookupKey (st.recordJITExecution fp t).profiles fp = some q ∧
          q.status = p.status) ∧
      lookupKey st.updateThresholds.profiles fp = some p ∧
      (∀ success t, ∃ q,
          lookupKey (st.recordCompilation fp success t).profiles fp = some q ∧
          q.status = (if success then CompilationStatus.JIT_COMPILED
                      else CompilationStatus.JIT_FAILED)) := by
  intro st fp p h hset
  have hne : ¬ p.status = CompilationStatus.NOT_ANALYZED := by
    rcases hset with h1 | h1 | h1 <;> rw [h1] <;> intro hq <;> exact absurd hq (by decide)
  refine ⟨?_, ?_, ?_, ?_⟩
  · intro instrs t n1 n2
    exact ⟨_, recordExecution_settled_lookup st fp instrs t n1 n2 p h hne, rfl⟩
  · intro t
    exact ⟨_, recordJITExecution_lookup st fp t p h, rfl⟩
  · rw [updateThresholds_profiles]; exact h
  · intro success t
    exact ⟨_, recordCompilation_lookup st fp success t p h, rfl⟩

/-- Closed instantiation of `c2_settled_status_stability`, discharging its
hypotheses at a concrete profiler state. -/
theorem c2_settled_status_stability_witness :
    lookupKey (ExpressionProfiler.updateThresholds
        { profiles := [(1, { status := CompilationStatus.JIT_COMPILED })] }).profiles 1 =
      some { status := CompilationStatus.JIT_COMPILED } := by
  exact (c2_settled_status_stability
    { profiles := [(1, { status := CompilationStatus.JIT_COMPILED })] } 1
    { status := CompilationStatus.JIT_COMPILED } rfl
    (Or.inr (Or.inl rfl))).2.2.1

/-- C3: for a profile in `NOT_ANALYZED` status, the candidacy test run by
`recordExecution` leaves the status `NOT_ANALYZED` while the (incremented)
execution count is below `min_execution_count`; once the count has reached
it, the stored profile is the result of `analyzeForCompilation`, whose
status is `INTERPRETER_ONLY` exactly when frequency is below
`min_execution_frequency`, or average time below
`min_avg_execution_time_ns`, or operation count above `max_complexity`,
and `JIT_CANDIDATE` otherwise. -/
theorem c3_candidacy_test :
    ∀ (st : ExpressionProfiler) (fp : Nat) (instrs : List SimpleTACLine)
      (t n1 n2 : Nat) (p : ExpressionProfile),
      lookupKey st.profiles fp = some p →
      p.status = CompilationStatus.NOT_ANALYZED →
      ∀ p1 : ExpressionProfile,
        p1 = { p with execution_count := p.execution_count + 1,
                      total_execution_time_ns := p.total_execution_time_ns + t,
                      last_execution_time := n1 } →
      (p1.execution_count < st.thresholds.min_execution_count →
         lookupKey (st.recordExecution fp instrs t n1 n2).profiles fp = some p1 ∧
         p1.status = CompilationStatus.NOT_ANALYZED) ∧
      (st.thresholds.min_execution_count ≤ p1.execution_count →
         lookupKey (st.recordExecution fp instrs t n1 n2).profiles fp =
           some (analyzeForCompilation st.thresholds p1 n2) ∧
         ((analyzeForCompilation st.thresholds p1 n2).status =
             CompilationStatus.INTERPRETER_ONLY ↔
           (p1.getExecutionFrequency n2 < st.thresholds.min_execution_frequency ∨
            p1.getAverageExecutionTime < st.thresholds.min_avg_execution_time_ns ∨
            st.thresholds.max_complexity < p1.operation_count)) ∧
         ((analyzeForCompilation st.thresholds p1 n2).status =
             CompilationStatus.JIT_CANDIDATE ↔
           ¬ (p1.getExecutionFrequency n2 < st.thresholds.min_execution_frequency ∨
              p1.getAverageExecutionTime < st.thresholds.min_avg_execution_time_ns ∨
              st.thresholds.max_complexity < p1.operation_count))) := by
  intro st fp instrs t n1 n2 p h hs p1 hp1
  have hs1 : p1.status = CompilationStatus.NOT_ANALYZED := by rw [hp1]; exact hs
  have hrec : lookupKey (st.recordExecution fp instrs t n1 n2).profiles fp =
      some (analyzeForCompilation st.thresholds p1 n2) := by
    rw [hp1]
    exact recordExecution_notAnalyzed_lookup st fp instrs t n1 n2 p h hs
  constructor
  · intro hlt
    have ha : analyzeForCompilation st.thresholds p1 n2 = p1 := by
      unfold analyzeForCompilation
      rw [if_pos hlt]
    rw [ha] at hrec
    exact ⟨hrec, hs1⟩
  · intro hge
    refine ⟨hrec, ?_, ?_⟩ <;>
      · unfold analyzeForCompilation
        rw [if_neg (not_lt.mpr hge)]
        split_ifs with hf ha hc <;> simp_all

/-- Closed instantiation of `c3_candidacy_test`, discharging its
hypotheses at a concrete profiler state: a `NOT_ANALYZED` profile whose
incremented count reaches the default `min_execution_count` and passes all
three rejection checks is stored as `JIT_CANDIDATE`. -/
theorem c3_candidacy_test_witness :
    lookupKey (ExpressionProfiler.recordExecution
        { profiles := [(1, { execution_count := 999, total_execution_time_ns := 50000000, operation_count := 3 })] }
        1 [] 0 1 2).profiles 1 =
      some (analyzeForCompilation ({} : CompilationThresholds)
        { execution_count := 1000, total_execution_time_ns := 50000000, last_execution_time := 1, operation_count := 3 } 2) ∧
    (analyzeForCompilation ({} : CompilationThresholds)
        { execution_count := 1000, total_execution_time_ns := 50000000, last_execution_time := 1, operation_count := 3 } 2).status =
      CompilationStatus.JIT_CANDIDATE := by
  have h := (c3_candidacy_test { profiles := [(1, { execution_count := 999, total_execution_time_ns := 50000000, operation_count := 3 })] } 1 [] 0 1 2 _ rfl rfl _ rfl).2 (by decide)
  refine ⟨h.1, ?_⟩
  norm_num [analyzeForCompilation, ExpressionProfile.getExecutionFrequency,
    ExpressionProfile.getAverageExecutionTime]

/-! ## Claim C4: the compiled-region cache key -/

/-- A compiled fingerprint answers later `compileContextRange` calls for
the same `(context, startLine, endLine)` from the cache. -/
theorem compileContextRange_cached (st : RuntimeJITState) (g : Option Nat)
    (ctx : Context) (s e : Int) (t : Nat) (r : CompiledRegion)
    (h : lookupKey st.compiledRegions
      (RuntimeJIT.generateContextFingerprint ctx s e) = some r) :
    RuntimeJIT.compileContextRange st g ctx s e t = ⟨true, false, st⟩ := by
  simp [RuntimeJIT.compileContextRange, h]

/-- C4 counterexample: the claim says two regions with the same operator
sequence and canonicalized operand shape share one cache key even across
contexts or line ranges.  The key built by `generateContextFingerprint`
embeds the context pointer and the raw line numbers: three identical
`AssignA` lines keyed from context 1 and from context 2 get different
keys, and the same is true for the identical-content ranges `[0,2]` and
`[3,5]` of one context. -/
theorem c4_counterexample :
    RuntimeJIT.generateContextFingerprint
        ⟨1, List.replicate 3 { op := MSOp.AssignA }⟩ 0 2 ≠
      RuntimeJIT.generateContextFingerprint
        ⟨2, List.replicate 3 { op := MSOp.AssignA }⟩ 0 2 ∧
    RuntimeJIT.generateContextFingerprint
        ⟨1, List.replicate 6 { op := MSOp.AssignA }⟩ 0 2 ≠
      RuntimeJIT.generateContextFingerprint
        ⟨1, List.replicate 6 { op := MSOp.AssignA }⟩ 3 5 := by
  decide

/-- C4 (amended): the compiled-region cache is keyed by
`generateContextFingerprint`, the string
`ctx_<context pointer>_lines_<start>_<end>_hash_<operator hash>`; the key
therefore depends on context identity and the raw line range (besides the
operators), and regions of identical instruction content in different
contexts do not share a cache entry: compiling the same three-instruction
shape in context 1 and then in context 2 invokes the code generator both
times. -/
theorem c4_amended_cache_key_depends_on_context_and_lines :
    (∀ (st : RuntimeJITState) (g : Option Nat) (ctx : Context) (s e : Int)
       (t : Nat) (r : CompiledRegion),
       lookupKey st.compiledRegions
         (RuntimeJIT.generateContextFingerprint ctx s e) = some r →
       RuntimeJIT.compileContextRange st g ctx s e t = ⟨true, false, st⟩) ∧
    ((RuntimeJIT.compileContextRange {} (some 1)
        ⟨1, List.replicate 3 { op := MSOp.AssignA }⟩ 0 2 0).generatorInvoked = true ∧
     (RuntimeJIT.compileContextRange
        (RuntimeJIT.compileContextRange {} (some 1)
          ⟨1, List.replicate 3 { op := MSOp.AssignA }⟩ 0 2 0).state (some 1)
        ⟨2, List.replicate 3 { op := MSOp.AssignA }⟩ 0 2 0).generatorInvoked = true) := by
  refine ⟨fun st g ctx s e t r h => compileContextRange_cached st g ctx s e t r h, ?_, ?_⟩ <;>
    decide

/-- Closed instantiation of
`c4_amended_cache_key_depends_on_context_and_lines`, discharging the
cache-hit hypothesis at a concrete state. -/
theorem c4_amended_witness :
    RuntimeJIT.compileContextRange
        { compiledRegions := [(RuntimeJIT.generateContextFingerprint
            ⟨1, List.replicate 3 { op := MSOp.AssignA }⟩ 0 2,
          { function := some 9, startLine := 0, endLine := 2,
            fingerprint := RuntimeJIT.generateContextFingerprint
              ⟨1, List.replicate 3 { op := MSOp.AssignA }⟩ 0 2 })] }
        (some 1) ⟨1, List.replicate 3 { op := MSOp.AssignA }⟩ 0 2 0 =
      ⟨true, false,
        { compiledRegions := [(RuntimeJIT.generateContextFingerprint
            ⟨1, List.replicate 3 { op := MSOp.AssignA }⟩ 0 2,
          { function := some 9, startLine := 0, endLine := 2,
            fingerprint := RuntimeJIT.generateContextFingerprint
              ⟨1, List.replicate 3 { op := MSOp.AssignA }⟩ 0 2 })] }⟩ :=
  c4_amended_cache_key_depends_on_context_and_lines.1
    { compiledRegions := [(RuntimeJIT.generateContextFingerprint
        ⟨1, List.replicate 3 { op := MSOp.AssignA }⟩ 0 2,
      { function := some 9, startLine := 0, endLine := 2,
        fingerprint := RuntimeJIT.generateContextFingerprint
          ⟨1, List.replicate 3 { op := MSOp.AssignA }⟩ 0 2 })] }
    (some 1) ⟨1, List.replicate 3 { op := MSOp.AssignA }⟩ 0 2 0
    { function := some 9, startLine := 0, endLine := 2,
      fingerprint := RuntimeJIT.generateContextFingerprint
        ⟨1, List.replicate 3 { op := MSOp.AssignA }⟩ 0 2 }
    (by decide)

/-! ## Claims C6 and C7: compilation idempotence and error-path purity -/

/-- A cached function name answers `compileExpression` from the cache. -/
theorem compileExpression_cached (jit : MiniScriptJIT) (out : CodegenOutcome)
    (name : String) (t addr : Nat)
    (h : lookupKey jit.CompiledFunctions name = some addr) :
    jit.compileExpression out name t = ⟨.ok addr, false, jit⟩ := by
  unfold MiniScriptJIT.compileExpression
  rw [h]

/-- Every `compileExpression` call either fails leaving the state exactly
as it was, or succeeds with the returned address cached under the
function name afterwards. -/
theorem compileExpression_cases (jit : MiniScriptJIT) (out : CodegenOutcome)
    (name : String) (t : Nat) :
    ((jit.compileExpression out name t).state = jit ∧
     ∃ msg, (jit.compileExpression out name t).value = .error msg) ∨
    (∃ addr, (jit.compileExpression out name t).value = .ok addr ∧
       lookupKey (jit.compileExpression out name t).state.CompiledFunctions name =
         some addr) := by
  cases hl : lookupKey jit.CompiledFunctions name with
  | some a =>
      refine Or.inr ⟨a, ?_, ?_⟩ <;> simp [MiniScriptJIT.compileExpression, hl]
  | none =>
      by_cases h1 : out.irGenOk
      · by_cases h2 : out.verifyOk
        · by_cases h3 : out.addModuleOk
          · cases hr : out.lookupResult with
            | none =>
                refine Or.inl ⟨?_, "lookup failed", ?_⟩ <;>
                  simp [MiniScriptJIT.compileExpression, hl, h1, h2, h3, hr]
            | some addr =>
                refine Or.inr ⟨addr, ?_, ?_⟩ <;>
                  simp [MiniScriptJIT.compileExpression, hl, h1, h2, h3, hr, lookupKey]
          · refine Or.inl ⟨?_, "addIRModule failed", ?_⟩ <;>
              simp [MiniScriptJIT.compileExpression, hl, h1, h2, h3]
        · refine Or.inl ⟨?_, "Function verification failed", ?_⟩ <;>
            simp [MiniScriptJIT.compileExpression, hl, h1, h2]
      · refine Or.inl ⟨?_, "generateLLVMIR failed", ?_⟩ <;>
          simp [MiniScriptJIT.compileExpression, hl, h1]

/-- Every `compileContextRange` call either fails (returns `false`)
leaving the state exactly as it was, or returns `true` with the region
cached under the context-range fingerprint afterwards. -/
theorem compileContextRange_cases (st : RuntimeJITState) (g : Option Nat)
    (ctx : Context) (s e : Int) (t : Nat) :
    ((RuntimeJIT.compileContextRange st g ctx s e t).state = st ∧
     (RuntimeJIT.compileContextRange st g ctx s e t).ok = false) ∨
    ((RuntimeJIT.compileContextRange st g ctx s e t).ok = true ∧
     ∃ r, lookupKey
         (RuntimeJIT.compileContextRange st g ctx s e t).state.compiledRegions
         (RuntimeJIT.generateContextFingerprint ctx s e) = some r) := by
  cases hl : lookupKey st.compiledRegions
      (RuntimeJIT.generateContextFingerprint ctx s e) with
  | some r =>
      refine Or.inr ⟨?_, r, ?_⟩ <;> simp [RuntimeJIT.compileContextRange, hl]
  | none =>
      by_cases h1 : RuntimeJIT.isCompilableSequence
          (RuntimeJIT.subListRange ctx.code s e)
      · cases g with
        | none =>
            refine Or.inl ⟨?_, ?_⟩ <;> simp [RuntimeJIT.compileContextRange, hl, h1]
        | some f =>
            refine Or.inr ⟨?_, ⟨{ function := some f, startLine := s, endLine := e, fingerprint := RuntimeJIT.generateContextFingerprint ctx s e, compilationTime := t, executionCount := 0 }, ?_⟩⟩ <;>
              simp [RuntimeJIT.compileContextRange, hl, h1, lookupKey]
      · refine Or.inl ⟨?_, ?_⟩ <;> simp [RuntimeJIT.compileContextRange, hl, h1]

/-- C6: for both compile entry points, a successful compilation is cached
and every later call for the same key returns the same compiled handle
from the cache without invoking the code generator again, and a key
already present in the cache is simply returned (successful entries are
never replaced).  Stated for the sequential (per-call) semantics; the
concurrent interleaving is the subject of the at-most-one-compile claim. -/
theorem c6_compilation_idempotence :
    (∀ (jit : MiniScriptJIT) (out1 out2 : CodegenOutcome) (name : String)
       (t1 t2 addr : Nat),
       (jit.compileExpression out1 name t1).value = .ok addr →
       MiniScriptJIT.compileExpression (jit.compileExpression out1 name t1).state
           out2 name t2 =
         ⟨.ok addr, false, (jit.compileExpression out1 name t1).state⟩) ∧
    (∀ (jit : MiniScriptJIT) (out : CodegenOutcome) (name : String) (t addr : Nat),
       lookupKey jit.CompiledFunctions name = some addr →
       jit.compileExpression out name t = ⟨.ok addr, false, jit⟩) ∧
    (∀ (st : RuntimeJITState) (g1 g2 : Option Nat) (ctx : Context) (s e : Int)
       (t1 t2 : Nat),
       (RuntimeJIT.compileContextRange st g1 ctx s e t1).ok = true →
       RuntimeJIT.compileContextRange
           (RuntimeJIT.compileContextRange st g1 ctx s e t1).state g2 ctx s e t2 =
         ⟨true, false, (RuntimeJIT.compileContextRange st g1 ctx s e t1).state⟩) := by
  refine ⟨?_, ?_, ?_⟩
  · intro jit out1 out2 name t1 t2 addr h
    rcases compileExpression_cases jit out1 name t1 with ⟨_, msg, hv⟩ | ⟨a, hv, hc⟩
    · rw [h] at hv; exact absurd hv (by simp)
    · rw [h] at hv
      cases hv
      exact compileExpression_cached _ out2 name t2 addr hc
  · exact fun jit out name t addr h => compileExpression_cached jit out name t addr h
  · intro st g1 g2 ctx s e t1 t2 h
    rcases compileContextRange_cases st g1 ctx s e t1 with ⟨_, hok⟩ | ⟨_, r, hc⟩
    · rw [h] at hok; exact absurd hok (by simp)
    · exact compileContextRange_cached _ g2 ctx s e t2 r hc

/-- Closed instantiation of `c6_compilation_idempotence`: after a
successful compile of `"f"`, a second call with an all-failing codegen
outcome still answers from the cache. -/
theorem c6_compilation_idempotence_witness :
    MiniScriptJIT.compileExpression
        (MiniScriptJIT.compileExpression {} ⟨true, true, true, some 5⟩ "f" 3).state
        ⟨false, false, false, none⟩ "f" 4 =
      ⟨.ok 5, false,
        (MiniScriptJIT.compileExpression {} ⟨true, true, true, some 5⟩ "f" 3).state⟩ :=
  c6_compilation_idempotence.1 {} ⟨true, true, true, some 5⟩
    ⟨false, false, false, none⟩ "f" 3 4 5 (by decide)

/-- C7: on every failing compile request — IR generation, verification,
module addition or symbol lookup failure in `compileExpression`; a
non-compilable sequence or a null generated function in
`compileContextRange` — the entry point returns the failure and the
compiled-function cache (the whole state) is exactly as before the call. -/
theorem c7_error_path_leaves_cache_unchanged :
    (∀ (jit : MiniScriptJIT) (out : CodegenOutcome) (name : String)
       (t : Nat) (msg : String),
       (jit.compileExpression out name t).value = .error msg →
       (jit.compileExpression out name t).state = jit) ∧
    (∀ (st : RuntimeJITState) (g : Option Nat) (ctx : Context) (s e : Int)
       (t : Nat),
       (RuntimeJIT.compileContextRange st g ctx s e t).ok = false →
       (RuntimeJIT.compileContextRange st g ctx s e t).state = st) := by
  constructor
  · intro jit out name t msg h
    rcases compileExpression_cases jit out name t with ⟨hst, _, _⟩ | ⟨a, hv, _⟩
    · exact hst
    · rw [hv] at h; exact absurd h (by simp)
  · intro st g ctx s e t h
    rcases compileContextRange_cases st g ctx s e t with ⟨hst, _⟩ | ⟨hok, _⟩
    · exact hst
    · rw [hok] at h; exact absurd h (by simp)

/-- Closed instantiation of `c7_error_path_leaves_cache_unchanged` at a
failing IR generation and at a null generated function. -/
theorem c7_error_path_witness :
    (MiniScriptJIT.compileExpression {} ⟨false, true, true, none⟩ "g" 1).state =
      ({} : MiniScriptJIT) ∧
    (RuntimeJIT.compileContextRange {} none
        ⟨1, List.replicate 3 { op := MSOp.AssignA }⟩ 0 2 0).state =
      ({} : RuntimeJITState) :=
  ⟨c7_error_path_leaves_cache_unchanged.1 {} ⟨false, true, true, none⟩ "g" 1
      "generateLLVMIR failed" (by decide),
   c7_error_path_leaves_cache_unchanged.2 {} none
      ⟨1, List.replicate 3 { op := MSOp.AssignA }⟩ 0 2 0 (by decide)⟩

/-! ## Claim C10: dispatching to the widest covering compiled region -/

theorem pickRegion_fold_spec (line : Int) :
    ∀ (l : List (String × CompiledRegion)) (acc : Option (String × CompiledRegion)),
      (∀ a, acc = some a → RuntimeJIT.coversLine a.2 line = true) →
      (∀ b, l.foldl (RuntimeJIT.pickRegion line) acc = some b →
         RuntimeJIT.coversLine b.2 line = true) ∧
      (∀ a, acc = some a →
         ∃ b, l.foldl (RuntimeJIT.pickRegion line) acc = some b ∧
           RuntimeJIT.spanOf a.2 ≤ RuntimeJIT.spanOf b.2) ∧
      (∀ kr ∈ l, RuntimeJIT.coversLine kr.2 line = true →
         ∃ b, l.foldl (RuntimeJIT.pickRegion line) acc = some b ∧
           RuntimeJIT.spanOf kr.2 ≤ RuntimeJIT.spanOf b.2) ∧
      ((∀ kr ∈ l, RuntimeJIT.coversLine kr.2 line = false) →
         l.foldl (RuntimeJIT.pickRegion line) acc = acc) := by
  intro l
  induction l with
  | nil =>
      intro acc hacc
      exact ⟨hacc, fun a ha => ⟨a, ha, le_refl _⟩, by simp, fun _ => rfl⟩
  | cons kr0 rest ih =>
      intro acc hacc
      by_cases hcov : RuntimeJIT.coversLine kr0.2 line = true
      · -- the head is a covering region: the accumulator is replaced or kept
        have hstep : ∃ c, RuntimeJIT.pickRegion line acc kr0 = some c ∧
            RuntimeJIT.coversLine c.2 line = true ∧
            RuntimeJIT.spanOf kr0.2 ≤ RuntimeJIT.spanOf c.2 ∧
            (∀ a, acc = some a → RuntimeJIT.spanOf a.2 ≤ RuntimeJIT.spanOf c.2) := by
          unfold RuntimeJIT.pickRegion
          rw [if_pos hcov]
          cases acc with
          | none => exact ⟨kr0, rfl, hcov, le_refl _, by simp⟩
          | some b =>
              dsimp only
              by_cases hsp : RuntimeJIT.spanOf b.2 < RuntimeJIT.spanOf kr0.2
              · rw [if_pos hsp]
                exact ⟨kr0, rfl, hcov, le_refl _, by
                  intro a ha; cases ha; exact le_of_lt hsp⟩
              · rw [if_neg hsp]
                exact ⟨b, rfl, hacc b rfl, not_lt.mp hsp, by
                  intro a ha; cases ha; exact le_refl _⟩
        obtain ⟨c, hc, hccov, hcspan, hcacc⟩ := hstep
        have hacc1 : ∀ a, RuntimeJIT.pickRegion line acc kr0 = some a →
            RuntimeJIT.coversLine a.2 line = true := by
          intro a ha; rw [hc] at ha; cases ha; exact hccov
        obtain ⟨ih1, ih2, ih3, _⟩ := ih (RuntimeJIT.pickRegion line acc kr0) hacc1
        refine ⟨ih1, ?_, ?_, ?_⟩
        · intro a ha
          obtain ⟨b, hb, hab⟩ := ih2 c hc
          exact ⟨b, hb, le_trans (hcacc a ha) hab⟩
        · intro kr hkr hkrcov
          rcases List.mem_cons.mp hkr with hkr0 | hkrr

          · cases hkr0
            obtain ⟨b, hb, hab⟩ := ih2 c hc
            exact ⟨b, hb, le_trans hcspan hab⟩
          · exact ih3 kr hkrr hkrcov
        · intro hall
          exact absurd hcov (by simp [hall kr0 (List.mem_cons_self kr0 rest)])
      · -- the head does not cover: the accumulator passes through unchanged
        have hstep : RuntimeJIT.pickRegion line acc kr0 = acc := by
          unfold RuntimeJIT.pickRegion
          rw [if_neg hcov]
        obtain ⟨ih1, ih2, ih3, ih4⟩ := ih (RuntimeJIT.pickRegion line acc kr0)
          (by rw [hstep]; exact hacc)
        rw [hstep] at ih1 ih2 ih3 ih4
        refine ⟨by simpa [hstep] using ih1, by simpa [hstep] using ih2, ?_, ?_⟩
        · intro kr hkr hkrcov
          rcases List.mem_cons.mp hkr with hkr0 | hkrr
          · cases hkr0; exact absurd hkrcov (by simp [hcov])
          · have := ih3 kr hkrr hkrcov
            simpa [hstep] using this
        · intro hall
          have h4 := ih4 (fun kr hkr => hall kr (List.mem_cons_of_mem kr0 hkr))
          simp only [List.foldl_cons, hstep]
          exact h4

theorem findBestRegion_none (regions : List (String × CompiledRegion)) (line : Int)
    (h : ∀ kr ∈ regions, RuntimeJIT.coversLine kr.2 line = false) :
    RuntimeJIT.findBestRegion regions line = none :=
  (pickRegion_fold_spec line regions none (by simp)).2.2.2 h

theorem findBestRegion_covers (regions : List (String × CompiledRegion)) (line : Int)
    (b : String × CompiledRegion) (h : RuntimeJIT.findBestRegion regions line = some b) :
    RuntimeJIT.coversLine b.2 line = true :=
  (pickRegion_fold_spec line regions none (by simp)).1 b h

theorem findBestRegion_maximal (regions : List (String × CompiledRegion)) (line : Int)
    (b : String × CompiledRegion) (h : RuntimeJIT.findBestRegion regions line = some b) :
    ∀ kr ∈ regions, RuntimeJIT.coversLine kr.2 line = true →
      RuntimeJIT.spanOf kr.2 ≤ RuntimeJIT.spanOf b.2 := by
  intro kr hkr hkrcov
  obtain ⟨b2, hb2, hspan⟩ :=
    (pickRegion_fold_spec line regions none (by simp)).2.2.1 kr hkr hkrcov
  rw [RuntimeJIT.findBestRegion] at h
  rw [h] at hb2
  cases hb2
  exact hspan

/-- C10: `executeJITOrFallback` selects a covering compiled region of
maximal line span; with a non-null function handle and a valid context it
returns `true` and advances the current line to the region's
`endLine + 1`; when no cached region covers the line, or compiled
execution fails (null context), it returns `false` with the line
unchanged and only the interpreter-fallback counter bumped. -/
theorem c10_executes_widest_covering_region :
    ∀ (st : RuntimeJITState) (contextValid : Bool) (line : Int),
      (∀ best, RuntimeJIT.findBestRegion st.compiledRegions line = some best →
         RuntimeJIT.coversLine best.2 line = true ∧
         (∀ kr ∈ st.compiledRegions, RuntimeJIT.coversLine kr.2 line = true →
            RuntimeJIT.spanOf kr.2 ≤ RuntimeJIT.spanOf best.2) ∧
         (best.2.function.isSome = true → contextValid = true →
            (RuntimeJIT.executeJITOrFallback st contextValid line).1 = true ∧
            (RuntimeJIT.executeJITOrFallback st contextValid line).2.1 =
              best.2.endLine + 1)) ∧
      ((∀ kr ∈ st.compiledRegions, RuntimeJIT.coversLine kr.2 line = false) →
         RuntimeJIT.executeJITOrFallback st contextValid line =
           (false, line,
             { st with interpreterExecutions := st.interpreterExecutions + 1 })) ∧
      (contextValid = false →
         (RuntimeJIT.executeJITOrFallback st contextValid line).1 = false ∧
         (RuntimeJIT.executeJITOrFallback st contextValid line).2.1 = line) := by
  intro st contextValid line
  refine ⟨?_, ?_, ?_⟩
  · intro best hfind
    refine ⟨findBestRegion_covers _ _ _ hfind,
      findBestRegion_maximal _ _ _ hfind, ?_⟩
    intro hfun hvalid
    constructor <;>
      simp [RuntimeJIT.executeJITOrFallback, hfind, hfun, hvalid,
        RuntimeJIT.executeCompiledFunction]
  · intro hall
    have hnone := findBestRegion_none st.compiledRegions line hall
    simp [RuntimeJIT.executeJITOrFallback, hnone]
  · intro hvalid
    cases hfind : RuntimeJIT.findBestRegion st.compiledRegions line with
    | none => constructor <;> simp [RuntimeJIT.executeJITOrFallback, hfind]
    | some best =>
        constructor <;>
          simp [RuntimeJIT.executeJITOrFallback, hfind, hvalid,
            RuntimeJIT.executeCompiledFunction]

/-- Closed instantiation of `c10_executes_widest_covering_region`: with
two cached regions both covering line 2, spans 3 and 10, execution uses
the wider one and jumps to its end line plus one. -/
theorem c10_witness :
    (RuntimeJIT.executeJITOrFallback
        { compiledRegions := [("a", { function := some 1, startLine := 0, endLine := 3, fingerprint := "a" }), ("b", { function := some 2, startLine := 0, endLine := 10, fingerprint := "b" })] }
        true 2).1 = true ∧
    (RuntimeJIT.executeJITOrFallback
        { compiledRegions := [("a", { function := some 1, startLine := 0, endLine := 3, fingerprint := "a" }), ("b", { function := some 2, startLine := 0, endLine := 10, fingerprint := "b" })] }
        true 2).2.1 = 11 := by
  have h := (c10_executes_widest_covering_region
    { compiledRegions := [("a", { function := some 1, startLine := 0, endLine := 3, fingerprint := "a" }), ("b", { function := some 2, startLine := 0, endLine := 10, fingerprint := "b" })] }
    true 2).1
    ("b", { function := some 2, startLine := 0, endLine := 10, fingerprint := "b" })
    (by decide)
  exact ⟨(h.2.2 (by decide) rfl).1, (h.2.2 (by decide) rfl).2⟩

/-! ## Claim C8: hot-path gating of compilation attempts -/

/-- C8 counterexample: the claim says a window is attempted only if THAT
WINDOW contains a backward jump.  With 14 plain assignments followed by a
`GotoA` back to line 2 at index 14, an interpreter step at line 0 of a
context with more than 50 recorded executions attempts compilation of the
window `[0, 10]`, which contains no backward jump at all: the gate
(`HasHotPaths`) scans the whole context code, not the window. -/
theorem c8_counterexample :
    JITMachine.attemptsCompilation true true (some 51)
        (List.replicate 14 ({ op := MSOp.AssignA } : MSTACLine) ++
          [{ op := MSOp.GotoA, rhsA := { type := MSValueType.Number, numberValue := 2 } }]) = true ∧
    JITMachine.compileWindow 0 15 = (0, 10) ∧
    JITMachine.windowContainsBackwardEdge
        (List.replicate 14 ({ op := MSOp.AssignA } : MSTACLine) ++
          [{ op := MSOp.GotoA, rhsA := { type := MSValueType.Number, numberValue := 2 } }])
        0 10 = false := by
  decide

/-- C8 (amended): on the interpreted path a compilation attempt for the
window around the current line is made only when the context has at least
5 instructions, more than 50 recorded executions, and its FULL code list
contains a backward control-flow edge — a Goto-family instruction whose
statically numeric target line is strictly below its own line; with no
such backward jump anywhere in the code, no compilation attempt is ever
made.  The attempted window itself need not contain the edge. -/
theorem c8_amended_gate_scans_whole_context :
    ∀ (jitPresent jitEnabled : Bool) (contextCount : Option Nat)
      (code : List MSTACLine),
      (JITMachine.attemptsCompilation jitPresent jitEnabled contextCount code = true →
         5 ≤ code.length ∧ ∃ iv ∈ code.enum,
           (iv.2.op = MSOp.GotoA ∨ iv.2.op = MSOp.GotoAifB ∨
            iv.2.op = MSOp.GotoAifTrulyB ∨ iv.2.op = MSOp.GotoAifNotB) ∧
           iv.2.rhsA.type = MSValueType.Number ∧
           iv.2.rhsA.numberValue < (iv.1 : Int)) ∧
      (JITMachine.HasHotPaths code = false →
         JITMachine.attemptsCompilation jitPresent jitEnabled contextCount code = false) := by
  intro jitPresent jitEnabled contextCount code
  constructor
  · intro h
    have hhot : JITMachine.HasHotPaths code = true := by
      unfold JITMachine.attemptsCompilation at h
      exact (Bool.and_eq_true _ _).mp h |>.2
    unfold JITMachine.HasHotPaths at hhot
    by_cases hlen : code.length < 5
    · rw [if_pos hlen] at hhot; exact absurd hhot (by simp)
    · rw [if_neg hlen] at hhot
      refine ⟨by omega, ?_⟩
      obtain ⟨iv, hmem, hiv⟩ := List.any_eq_true.mp hhot
      exact ⟨iv, hmem, of_decide_eq_true hiv⟩
  · intro h
    unfold JITMachine.attemptsCompilation
    rw [h]
    exact Bool.and_false _

/-- Closed instantiation of `c8_amended_gate_scans_whole_context`,
discharging its hypotheses at the concrete looping context. -/
theorem c8_amended_witness :
    5 ≤ (List.replicate 14 ({ op := MSOp.AssignA } : MSTACLine) ++
        ([{ op := MSOp.GotoA, rhsA := { type := MSValueType.Number, numberValue := 2 } }] : List MSTACLine)).length ∧
    ∃ iv ∈ (List.replicate 14 ({ op := MSOp.AssignA } : MSTACLine) ++
        ([{ op := MSOp.GotoA, rhsA := { type := MSValueType.Number, numberValue := 2 } }] : List MSTACLine)).enum,
      (iv.2.op = MSOp.GotoA ∨ iv.2.op = MSOp.GotoAifB ∨
       iv.2.op = MSOp.GotoAifTrulyB ∨ iv.2.op = MSOp.GotoAifNotB) ∧
      iv.2.rhsA.type = MSValueType.Number ∧
      iv.2.rhsA.numberValue < (iv.1 : Int) :=
  (c8_amended_gate_scans_whole_context true true (some 51)
    (List.replicate 14 ({ op := MSOp.AssignA } : MSTACLine) ++
      [{ op := MSOp.GotoA, rhsA := { type := MSValueType.Number, numberValue := 2 } }])).1
    (by decide)

/-- Closed instantiation of `c5_threshold_bounds`, discharging its
hypothesis at a concrete profiler state. -/
theorem c5_threshold_bounds_witness :
    thresholdsInBounds ([((1 : ℚ), (3 : ℚ)), ((0 : ℚ), (0 : ℚ))].foldl
      (fun acc pr => acc.adjustThresholds pr.1 pr.2)
      ({} : CompilationThresholds)) ∧
    thresholdsInBounds ({ successful_compilations := 1 } :
      ExpressionProfiler).updateThresholds.thresholds := by
  refine ⟨c5_threshold_bounds.1 _, c5_threshold_bounds.2 _ ?_⟩
  refine ⟨by norm_num, by norm_num, by norm_num, by norm_num⟩

/-! ## Claim C9: the concurrent miss-compile-insert race -/

theorem countGenned_le_length (l : List ThreadPhase) : countGenned l ≤ l.length := by
  induction l with
  | nil => simp [countGenned]
  | cons ph rest ih =>
      simp only [countGenned, List.length_cons]
      split_ifs <;> omega

theorem countGenned_set :
    ∀ (l : List ThreadPhase) (i : Nat) (old new : ThreadPhase),
      l[i]? = some old →
      countGenned (l.set i new) + (if old.hasGenned then 1 else 0) =
        countGenned l + (if new.hasGenned then 1 else 0) := by
  intro l
  induction l with
  | nil => intro i old new h; simp at h
  | cons q rest ih =>
      intro i old new h
      cases i with
      | zero =>
          simp at h
          subst h
          simp only [List.set, countGenned]
          omega
      | succ j =>
          simp at h
          have hj := ih j old new h
          simp only [List.set, countGenned]
          omega

theorem countGenned_pos :
    ∀ (l : List ThreadPhase) (i : Nat) (ph : ThreadPhase),
      l[i]? = some ph → ph.hasGenned = true → 1 ≤ countGenned l := by
  intro l
  induction l with
  | nil => intro i ph h _; simp at h
  | cons q rest ih =>
      intro i ph h hg
      cases i with
      | zero =>
          simp at h
          subst h
          simp only [countGenned, hg, if_true]
          omega
      | succ j =>
          simp at h
          have hj := ih j ph h hg
          simp only [countGenned]
          omega

theorem mem_of_mem_set {α : Type} :
    ∀ (l : List α) (i : Nat) (a x : α), x ∈ l.set i a → x = a ∨ x ∈ l := by
  intro l
  induction l with
  | nil => intro i a x h; simp [List.set] at h
  | cons q rest ih =>
      intro i a x h
      cases i with
      | zero =>
          simp only [List.set] at h
          rcases List.mem_cons.mp h with h2 | h2
          · exact Or.inl h2
          · exact Or.inr (List.mem_cons_of_mem q h2)
      | succ j =>
          simp only [List.set] at h
          rcases List.mem_cons.mp h with h2 | h2
          · exact Or.inr (by simp [h2])
          · rcases ih j a x h2 with h3 | h3
            · exact Or.inl h3
            · exact Or.inr (List.mem_cons_of_mem q h3)

theorem raceStep_threads_length (codegen : Nat → Option Nat) (s : RaceState)
    (tid : Nat) : (raceStep codegen s tid).threads.length = s.threads.length := by
  cases hget : s.threads[tid]? with
  | none => simp [raceStep, hget]
  | some ph =>
      cases ph with
      | start => by_cases hc : s.cacheHasFp = true <;> simp [raceStep, hget, hc]
      | missed => simp [raceStep, hget]
      | generated f => cases f <;> simp [raceStep, hget]
      | finished r g => simp [raceStep, hget]

theorem raceStep_inv (codegen : Nat → Option Nat) (s : RaceState) (tid : Nat)
    (h : raceInv s) : raceInv (raceStep codegen s tid) := by
  obtain ⟨h1, h2, h3⟩ := h
  cases hget : s.threads[tid]? with
  | none =>
      have hstep : raceStep codegen s tid = s := by simp [raceStep, hget]
      rw [hstep]; exact ⟨h1, h2, h3⟩
  | some ph =>
      cases ph with
      | start =>
          by_cases hc : s.cacheHasFp = true
          · have hstep : raceStep codegen s tid =
                { s with threads := s.threads.set tid (ThreadPhase.finished true false) } := by
              simp [raceStep, hget, hc]
            rw [hstep]
            have hcnt := countGenned_set s.threads tid ThreadPhase.start
              (ThreadPhase.finished true false) hget
            simp [ThreadPhase.hasGenned] at hcnt
            refine ⟨by simp only []; omega, fun _ => h2 hc, ?_⟩
            intro ph2 hmem hfin
            rcases mem_of_mem_set _ _ _ _ hmem with rfl | hmem2
            · exact h2 hc
            · exact h3 ph2 hmem2 hfin
          · have hstep : raceStep codegen s tid =
                { s with threads := s.threads.set tid ThreadPhase.missed } := by
              simp [raceStep, hget, hc]
            rw [hstep]
            have hcnt := countGenned_set s.threads tid ThreadPhase.start
              ThreadPhase.missed hget
            simp [ThreadPhase.hasGenned] at hcnt
            refine ⟨by simp only []; omega, h2, ?_⟩
            intro ph2 hmem hfin
            rcases mem_of_mem_set _ _ _ _ hmem with rfl | hmem2
            · exact absurd hfin (by simp [ThreadPhase.isFinished])
            · exact h3 ph2 hmem2 hfin
      | missed =>
          have hstep : raceStep codegen s tid =
              { s with threads := s.threads.set tid (ThreadPhase.generated (codegen tid)),
                       genCount := s.genCount + 1 } := by
            simp [raceStep, hget]
          rw [hstep]
          have hcnt := countGenned_set s.threads tid ThreadPhase.missed
            (ThreadPhase.generated (codegen tid)) hget
          simp [ThreadPhase.hasGenned] at hcnt
          exact ⟨by simp only []; omega, fun _ => by simp only []; omega,
            fun ph2 _ _ => by simp only []; omega⟩
      | generated f =>
          have hpos : 1 ≤ countGenned s.threads :=
            countGenned_pos s.threads tid (ThreadPhase.generated f) hget
              (by simp [ThreadPhase.hasGenned])
          cases f with
          | some v =>
              have hstep : raceStep codegen s tid =
                  { s with threads := s.threads.set tid (ThreadPhase.finished true true),
                           cacheHasFp := true } := by
                simp [raceStep, hget]
              rw [hstep]
              have hcnt := countGenned_set s.threads tid
                (ThreadPhase.generated (some v)) (ThreadPhase.finished true true) hget
              simp [ThreadPhase.hasGenned] at hcnt
              refine ⟨by simp only []; omega, fun _ => by simp only []; omega, ?_⟩
              intro ph2 hmem hfin
              simp only []
              omega
          | none =>
              have hstep : raceStep codegen s tid =
                  { s with threads := s.threads.set tid (ThreadPhase.finished false true) } := by
                simp [raceStep, hget]
              rw [hstep]
              have hcnt := countGenned_set s.threads tid
                (ThreadPhase.generated none) (ThreadPhase.finished false true) hget
              simp [ThreadPhase.hasGenned] at hcnt
              refine ⟨by simp only []; omega, h2, ?_⟩
              intro ph2 hmem hfin
              simp only []
              omega
      | finished r g =>
          have hstep : raceStep codegen s tid = s := by simp [raceStep, hget]
          rw [hstep]; exact ⟨h1, h2, h3⟩

theorem runSchedule_inv (codegen : Nat → Option Nat) :
    ∀ (sched : List Nat) (s : RaceState),
      raceInv s → raceInv (runSchedule codegen s sched) := by
  intro sched
  induction sched with
  | nil => intro s h; exact h
  | cons tid rest ih => intro s h; exact ih _ (raceStep_inv codegen s tid h)

theorem runSchedule_threads_length (codegen : Nat → Option Nat) :
    ∀ (sched : List Nat) (s : RaceState),
      (runSchedule codegen s sched).threads.length = s.threads.length := by
  intro sched
  induction sched with
  | nil => intro s; rfl
  | cons tid rest ih =>
      intro s
      calc (runSchedule codegen (raceStep codegen s tid) rest).threads.length
          = (raceStep codegen s tid).threads.length := ih _
        _ = s.threads.length := raceStep_threads_length codegen s tid

theorem countGenned_replicate_start (n : Nat) :
    countGenned (List.replicate n ThreadPhase.start) = 0 := by
  induction n with
  | zero => rfl
  | succ m ih => simp [List.replicate, countGenned, ThreadPhase.hasGenned, ih]

theorem initRace_inv (n : Nat) : raceInv (initRace n) := by
  refine ⟨by simp [initRace, countGenned_replicate_start], by simp [initRace], ?_⟩
  intro ph hmem hfin
  have heq := List.eq_of_mem_replicate hmem
  subst heq
  exact absurd hfin (by simp [ThreadPhase.isFinished])

/-- C9 counterexample: the claim says N concurrent callers racing the
miss-compile-insert path for one never-seen fingerprint invoke the code
generator exactly once.  `compileContextRange` releases the mutex between
the cache check and the insertion, so with two threads the interleaving
check-A, check-B, gen-A, gen-B, insert-A, insert-B makes both threads
miss and the generator run twice (both callers still return success). -/
theorem c9_counterexample :
    (runSchedule (fun _ => some 7) (initRace 2) [0, 1, 0, 1, 0, 1]).genCount = 2 ∧
    (runSchedule (fun _ => some 7) (initRace 2) [0, 1, 0, 1, 0, 1]).threads =
      [ThreadPhase.finished true true, ThreadPhase.finished true true] := by
  decide

/-- C9 (amended): because only the cache check and the insertion are
individually atomic under the mutex while the code generator runs
unlocked, N concurrent callers for one never-seen fingerprint may each
invoke the generator — the generator runs at most once per caller (at
most N times in total, not exactly once), and by the time any caller has
completed its call the generator has run at least once. -/
theorem c9_amended_generator_bounded_per_caller :
    ∀ (codegen : Nat → Option Nat) (n : Nat) (sched : List Nat),
      (runSchedule codegen (initRace n) sched).genCount ≤ n ∧
      (∀ ph ∈ (runSchedule codegen (initRace n) sched).threads,
         ph.isFinished = true →
           1 ≤ (runSchedule codegen (initRace n) sched).genCount) := by
  intro codegen n sched
  obtain ⟨h1, h2, h3⟩ := runSchedule_inv codegen sched (initRace n) (initRace_inv n)
  refine ⟨?_, h3⟩
  rw [h1]
  have hle := countGenned_le_length (runSchedule codegen (initRace n) sched).threads
  rw [runSchedule_threads_length codegen sched (initRace n)] at hle
  simpa [initRace] using hle

/-- Closed instantiation of `c9_amended_generator_bounded_per_caller`,
discharging its hypotheses for a single caller that runs to completion. -/
theorem c9_amended_witness :
    (runSchedule (fun _ => some 0) (initRace 1) [0, 0, 0]).genCount ≤ 1 ∧
    1 ≤ (runSchedule (fun _ => some 0) (initRace 1) [0, 0, 0]).genCount :=
  ⟨(c9_amended_generator_bounded_per_caller (fun _ => some 0) 1 [0, 0, 0]).1,
   (c9_amended_generator_bounded_per_caller (fun _ => some 0) 1 [0, 0, 0]).2
     (ThreadPhase.finished true true) (by decide) rfl⟩

end MS
